import Mathlib

/-!
# Verification of the scan-cli-plugin authentication core

Shallow embedding of `internal/authentication/authenticator.go`:
the JWT validator (`checkTokenValidity`, `findKey`), the local token
store (`getLocalToken`, `updateLocalToken`) and the orchestrator
(`GetToken`, `negotiateScanIDToken`).

Modelling conventions:
* Time instants are `Int` nanoseconds (matching Go `time.Time` arithmetic at
  nanosecond resolution); `1 * time.Minute` is `60 * 1000000000` ns.
* The JWT wire format is abstracted: `jwt.ParseSigned` becomes an environment
  parameter `parse : String → Option JSONWebToken`; a `none` result stands for
  a parse error.  The parsed token carries its headers, its claims and the
  public key under which its signature verifies (`sigKey`), so that
  `parsedToken.Claims(publicKey, &out)` — which verifies the signature and
  extracts the claims — becomes a comparison of `publicKey` with `sigKey`.
* `jwt.Claims` is modelled by its three time fields (`exp`, `nbf`, `iat`).
  The repository calls `ValidateWithLeeway` with
  `jwt.Expected{Time: time.Now().Add(expirationWindow)}`, whose `Issuer`,
  `Subject`, `ID` and `Audience` fields are zero, so the corresponding
  string-claim checks inside go-jose are vacuous and omitted from the model;
  `e.Time` comes from `time.Now()` and is never Go's zero `Time`, so the
  `IsZero` fallback inside go-jose is likewise dead on this call site.
* The tokens file is a `Store` value passed explicitly: `FileState` records
  whether the file is absent, present with some data, or present but
  unreadable (a `ReadFile` error that is not `os.ErrNotExist`, e.g.
  permission denied); `FileData` records whether the contents unmarshal as a
  `map[string]string` (`tokensJSON`) or not (`corrupt`).  `json.Marshal` of a
  `map[string]string` cannot fail and round-trips with `json.Unmarshal`, so
  a written file is always `tokensJSON` of the written map.  A `writeFails`
  flag models the environment making `ioutil.WriteFile` fail.
* The Hub network client is the opaque collaborator `HubClient`; `GetToken`
  additionally returns the list of Hub calls it performed, in order, so that
  "Login / GetScanID is (not) invoked" is observable.
-/

set_option autoImplicit false

deriving instance DecidableEq for Except

namespace ScanAuth

/-- The constant `expirationWindow = 1 * time.Minute`, in nanoseconds. -/
def expirationWindow : Int := 60 * 1000000000

/-- One JOSE header of a parsed token (`jose.Header`); the validator only
reads its `KeyID` field. -/
structure Header where
  keyID : String
  deriving DecidableEq, Repr

/-- The time fields of `jwt.Claims` (`exp`, `nbf`, `iat`), each optional,
as instants in nanoseconds.  The remaining fields (`iss`, `sub`, `aud`,
`jti`) are never compared on this call site (see module docstring). -/
structure Claims where
  expiry : Option Int
  notBefore : Option Int
  issuedAt : Option Int
  deriving DecidableEq, Repr

/-- Abstract public-key material (`crypto.PublicKey`). -/
abbrev PubKey := Nat

/-- A parsed signed token (`jwt.JSONWebToken`): its headers, its claims, and
the public key under which its signature verifies. -/
structure JSONWebToken where
  headers : List Header
  claims : Claims
  sigKey : PubKey
  deriving DecidableEq, Repr

/-- One entry of the key set (`jose.JSONWebKey`): a key identifier and the
public key returned by `key.Public()`. -/
structure JSONWebKey where
  keyID : String
  public : PubKey
  deriving DecidableEq, Repr

/-- The key set `jose.JSONWebKeySet`. -/
structure JSONWebKeySet where
  keys : List JSONWebKey
  deriving DecidableEq, Repr

/-- Errors produced by go-jose's `Claims.ValidateWithLeeway`
(`ErrNotValidYet`, `ErrExpired`, `ErrIssuedInTheFuture`). -/
inductive ClaimsError where
  | notValidYet
  | expired
  | issuedInFuture
  deriving DecidableEq, Repr

/-- go-jose guard `c.NotBefore != nil && validationTime.Add(leeway).Before(c.NotBefore.Time())`. -/
def nbfViolated (c : Claims) (t leeway : Int) : Bool :=
  match c.notBefore with
  | some nbf => decide (t + leeway < nbf)
  | none => false

/-- go-jose guard `c.Expiry != nil && validationTime.Add(-leeway).After(c.Expiry.Time())`. -/
def expiryViolated (c : Claims) (t leeway : Int) : Bool :=
  match c.expiry with
  | some exp => decide (exp < t - leeway)
  | none => false

/-- go-jose guard `c.IssuedAt != nil && validationTime.Add(leeway).Before(c.IssuedAt.Time())`. -/
def iatViolated (c : Claims) (t leeway : Int) : Bool :=
  match c.issuedAt with
  | some iat => decide (t + leeway < iat)
  | none => false

/-- go-jose v2.6.0 `Claims.ValidateWithLeeway(e, leeway)` specialised to an
`Expected` whose only nonzero field is `Time` (here `t`): the three guarded
early returns for `NotBefore`, `Expiry` and `IssuedAt`, in that order. -/
def validateWithLeeway (c : Claims) (t : Int) (leeway : Int) : Except ClaimsError Unit :=
  if nbfViolated c t leeway then .error .notValidYet
  else if expiryViolated c t leeway then .error .expired
  else if iatViolated c t leeway then .error .issuedInFuture
  else .ok ()

/-- The failure kinds of `checkTokenValidity`, one per `return`-an-error site:
`"empty token"`, `"invalid token: %s"` (parse failure),
`"invalid token: key identifier does not match"` (from `findKey`),
`"invalid token: signature does not match the content: %s"`, and
`"token has expired: %s"` (wrapping any `ValidateWithLeeway` failure). -/
inductive ValidationError where
  | empty
  | malformed
  | keyNotFound
  | signatureInvalid
  | expired
  deriving DecidableEq, Repr

/-- The `kid` selection loop of `findKey`: the first header whose `KeyID`
is nonempty wins; `""` when no header carries one. -/
def firstKid : List Header → String
  | [] => ""
  | h :: rest => if h.keyID ≠ "" then h.keyID else firstKid rest

/-- The linear search of `findKey` over `a.jwks.Keys`: the first key whose
`KeyID` equals `kid` yields `key.Public()`. -/
def lookupKey : List JSONWebKey → String → Except ValidationError PubKey
  | [], _ => .error .keyNotFound
  | k :: rest, kid => if k.keyID = kid then .ok k.public else lookupKey rest kid

/-- Model of `findKey`: extract the key identifier from the token headers, reject when
absent, then linearly search the key set. -/
def findKey (jwks : JSONWebKeySet) (token : JSONWebToken) : Except ValidationError PubKey :=
  let kid := firstKid token.headers
  if kid = "" then .error .keyNotFound
  else lookupKey jwks.keys kid

/-- The struct `types.AuthConfig` restricted to the fields this package reads. -/
structure AuthConfig where
  username : String
  password : String
  deriving DecidableEq, Repr

/-- The opaque Hub network collaborator: `hub.Client.Login` and
`hub.Client.GetScanID`, each returning a value or an error cause. -/
structure HubClient where
  login : AuthConfig → Except String String
  getScanID : String → Except String String

/-- The Go `Authenticator` struct.  Its `tokensPath` field is replaced by the
explicit `Store` value threaded through the store operations. -/
structure Authenticator where
  hub : HubClient
  jwks : JSONWebKeySet

/-- Model of `checkTokenValidity`: empty check, parse, key lookup, signature check,
then expiry-with-leeway check at `time.Now().Add(expirationWindow)` with
leeway `0`; any `ValidateWithLeeway` failure is wrapped as the single
"token has expired" kind. -/
def checkTokenValidity (parse : String → Option JSONWebToken) (a : Authenticator)
    (now : Int) (token : String) : Except ValidationError Unit :=
  if token = "" then .error .empty
  else
    match parse token with
    | none => .error .malformed
    | some parsedToken =>
      match findKey a.jwks parsedToken with
      | .error e => .error e
      | .ok publicKey =>
        if publicKey ≠ parsedToken.sigKey then .error .signatureInvalid
        else
          match validateWithLeeway parsedToken.claims (now + expirationWindow) 0 with
          | .error _ => .error .expired
          | .ok _ => .ok ()

/-! ## The local token store -/

/-- Contents of the tokens file: either bytes that fail `json.Unmarshal`
into a `map[string]string` (`corrupt`, carrying the raw text), or the
marshalled form of such a map (`tokensJSON`). -/
inductive FileData where
  | corrupt (raw : String)
  | tokensJSON (m : List (String × String))
  deriving DecidableEq, Repr

/-- State of the tokens file: absent (`os.Stat`/`ReadFile` fail with
`os.ErrNotExist`), present but unreadable (`os.Stat` succeeds with the given
permission mode, `ReadFile` fails with an error that is not `ErrNotExist`,
e.g. permission denied), or present with data and a permission mode. -/
inductive FileState where
  | absent
  | unreadable (mode : Nat)
  | present (data : FileData) (mode : Nat)
  deriving DecidableEq, Repr

/-- The filesystem as the store sees it: the tokens-file state, plus an
environment flag making `ioutil.WriteFile` fail. -/
structure Store where
  fstate : FileState
  writeFails : Bool
  deriving DecidableEq, Repr

/-- The errors `updateLocalToken` can return: a `ReadFile` failure other
than `ErrNotExist` (returned verbatim), or a `WriteFile` failure.
(`json.Marshal` of a `map[string]string` cannot fail.) -/
inductive StoreError where
  | readFailed
  | writeFailed
  deriving DecidableEq, Repr

/-- Go-map read `m[k]` for `map[string]string`: the stored value, or the
zero value `""` when the key is absent. -/
def mapGet : List (String × String) → String → String
  | [], _ => ""
  | (k', v) :: rest, k => if k' = k then v else mapGet rest k

/-- Go-map write `m[k] = v`: overwrite the entry for `k` if present,
otherwise add it. -/
def mapInsert : List (String × String) → String → String → List (String × String)
  | [], k, v => [(k, v)]
  | (k', v') :: rest, k, v =>
    if k' = k then (k, v) :: rest else (k', v') :: mapInsert rest k v

/-- Model of `getLocalToken` (Load): read the tokens file; on `ErrNotExist` return `""`;
any other read error leaves `buf` nil so the subsequent `json.Unmarshal`
fails; on unmarshal failure return `""`; otherwise return
`tokens[username]`.  Its Go signature returns only a string: no error can
reach the caller. -/
def getLocalToken (s : Store) (username : String) : String :=
  match s.fstate with
  | .absent => ""
  | .unreadable _ => ""
  | .present (.corrupt _) _ => ""
  | .present (.tokensJSON tokens) _ => mapGet tokens username

/-- Model of `updateLocalToken` (Save): `os.Stat` picks the mode (`0644` when the file does
not exist, its current mode otherwise); `ReadFile` errors other than
`ErrNotExist` are returned; `json.Unmarshal` failures are ignored, leaving
the fresh empty map; the entry for `username` is set; the map is marshalled
and written back with the chosen mode. -/
def updateLocalToken (s : Store) (username token : String) : Except StoreError Store :=
  match s.fstate with
  | .unreadable _ => .error .readFailed
  | .absent =>
    if s.writeFails then .error .writeFailed
    else .ok { s with fstate := .present (.tokensJSON (mapInsert [] username token)) 0o644 }
  | .present data mode =>
    let tokens := match data with
      | .corrupt _ => []
      | .tokensJSON m => m
    if s.writeFails then .error .writeFailed
    else .ok { s with fstate := .present (.tokensJSON (mapInsert tokens username token)) mode }

/-! ## The orchestrator -/

/-- One observable call to the Hub collaborator. -/
inductive HubEvent where
  | login
  | getScanID
  deriving DecidableEq, Repr

/-- The wrap sites of `negotiateScanIDToken`: `"could not login: %w"` and
`"could not get scan id: %w"`, each carrying the underlying cause. -/
inductive NegotiateError where
  | loginFailed (cause : String)
  | getScanIDFailed (cause : String)
  deriving DecidableEq, Repr

/-- The wrap sites of `GetToken`: `"could not negotiate scan id token: %w"`
and `"could not update local token: %w"`. -/
inductive GetTokenError where
  | negotiateFailed (e : NegotiateError)
  | updateFailed (e : StoreError)
  deriving DecidableEq, Repr

/-- Model of `negotiateScanIDToken`: `hub.Login`, then `hub.GetScanID` on the session
token; each failure is wrapped and returned at once.  The second component
records the Hub calls performed, in order. -/
def negotiateScanIDToken (hub : HubClient) (hubAuthConfig : AuthConfig) :
    Except NegotiateError String × List HubEvent :=
  match hub.login hubAuthConfig with
  | .error cause => (.error (.loginFailed cause), [.login])
  | .ok hubToken =>
    match hub.getScanID hubToken with
    | .error cause => (.error (.getScanIDFailed cause), [.login, .getScanID])
    | .ok token => (.ok token, [.login, .getScanID])

/-- What a `GetToken` call returns and does: the Go result pair
(`token`, `err`) — on every error path the Go code returns the empty
string — together with the resulting filesystem state and the list of Hub
calls performed. -/
structure GetTokenResult where
  token : String
  err : Option GetTokenError
  store : Store
  events : List HubEvent
  deriving DecidableEq, Repr

/-- Model of `GetToken`: load the cached token, return it when `checkTokenValidity`
accepts it; otherwise negotiate a fresh token (failure wrapped, empty string
returned), persist it (failure wrapped, empty string returned — the fresh
token is discarded), and return it. -/
def GetToken (parse : String → Option JSONWebToken) (a : Authenticator) (now : Int)
    (hubAuthConfig : AuthConfig) (s : Store) : GetTokenResult :=
  let token := getLocalToken s hubAuthConfig.username
  match checkTokenValidity parse a now token with
  | .ok _ => { token := token, err := none, store := s, events := [] }
  | .error _ =>
    match negotiateScanIDToken a.hub hubAuthConfig with
    | (.error e, tr) =>
      { token := "", err := some (.negotiateFailed e), store := s, events := tr }
    | (.ok newToken, tr) =>
      match updateLocalToken s hubAuthConfig.username newToken with
      | .error e =>
        { token := "", err := some (.updateFailed e), store := s, events := tr }
      | .ok s' => { token := newToken, err := none, store := s', events := tr }

/-! ## Concrete instances for witnesses and counterexamples -/

/-- A Hub collaborator whose two calls both succeed. -/
def demoHub : HubClient :=
  { login := fun _ => .ok "hub-session", getScanID := fun _ => .ok "fresh-token" }

/-- A two-key key set. -/
def demoKeys : JSONWebKeySet :=
  { keys := [{ keyID := "k1", public := 7 }, { keyID := "k2", public := 9 }] }

/-- An authenticator over `demoHub` and `demoKeys`. -/
def demoAuth : Authenticator := { hub := demoHub, jwks := demoKeys }

/-- A token signed by key `k1` whose `nbf` claim lies strictly beyond
`now + expirationWindow` (for `now = 0`) while its expiry lies far beyond. -/
def nbfToken : JSONWebToken :=
  { headers := [{ keyID := "k1" }],
    claims := { expiry := some 200000000000, notBefore := some 150000000000,
                issuedAt := none },
    sigKey := 7 }

/-- A parse environment mapping the string `"tok"` to `nbfToken`. -/
def nbfParse : String → Option JSONWebToken :=
  fun s => if s = "tok" then some nbfToken else none

/-- A token signed by key `k1` whose expiry equals `now + expirationWindow`
exactly (for `now = 0`), with no other time claims. -/
def boundaryToken : JSONWebToken :=
  { headers := [{ keyID := "k1" }],
    claims := { expiry := some 60000000000, notBefore := none, issuedAt := none },
    sigKey := 7 }

/-- A parse environment mapping the string `"tok"` to `boundaryToken`. -/
def boundaryParse : String → Option JSONWebToken :=
  fun s => if s = "tok" then some boundaryToken else none

/-- A token whose first nonempty header kid `kX` is absent from `demoKeys`,
carrying a signature that would verify under key `k1`. -/
def unknownKidToken : JSONWebToken :=
  { headers := [{ keyID := "" }, { keyID := "kX" }],
    claims := { expiry := some 200000000000, notBefore := none, issuedAt := none },
    sigKey := 7 }

/-- A parse environment mapping the string `"tok"` to `unknownKidToken`. -/
def unknownKidParse : String → Option JSONWebToken :=
  fun s => if s = "tok" then some unknownKidToken else none

/-- A parse environment in which no string parses: every nonempty cached
token is malformed, and an empty one is rejected as empty. -/
def noParse : String → Option JSONWebToken := fun _ => none

/-- A token valid in every respect at `now = 0`: known kid `k2`, matching
signature, expiry strictly beyond `now + expirationWindow`, `nbf` and `iat`
in the past. -/
def validToken : JSONWebToken :=
  { headers := [{ keyID := "k2" }],
    claims := { expiry := some 200000000000, notBefore := some 0, issuedAt := some 0 },
    sigKey := 9 }

/-- A parse environment mapping the string `"tok"` to `validToken`. -/
def validParse : String → Option JSONWebToken :=
  fun s => if s = "tok" then some validToken else none

/-- A token signed by key `k1` whose expiry lies strictly before
`now + expirationWindow` (for `now = 0`). -/
def expiredToken : JSONWebToken :=
  { headers := [{ keyID := "k1" }],
    claims := { expiry := some 59999999999, notBefore := none, issuedAt := none },
    sigKey := 7 }

/-- A parse environment mapping the string `"tok"` to `expiredToken`. -/
def expiredParse : String → Option JSONWebToken :=
  fun s => if s = "tok" then some expiredToken else none

/-! ## Helper lemmas -/

theorem mapGet_mapInsert_self (m : List (String × String)) (k v : String) :
    mapGet (mapInsert m k v) k = v := by
  induction m with
  | nil => simp [mapInsert, mapGet]
  | cons p rest ih =>
    by_cases h : p.1 = k
    · simp [mapInsert, mapGet, h]
    · simp [mapInsert, mapGet, h, ih]

theorem mapGet_mapInsert_ne (m : List (String × String)) (k v k' : String)
    (hne : k' ≠ k) : mapGet (mapInsert m k v) k' = mapGet m k' := by
  have hkk : k ≠ k' := fun h => hne h.symm
  induction m with
  | nil => simp [mapInsert, mapGet, hkk]
  | cons p rest ih =>
    by_cases h : p.1 = k
    · have hp : p.1 ≠ k' := by rw [h]; exact hkk
      simp [mapInsert, mapGet, h, hkk, hp]
    · by_cases h' : p.1 = k'
      · simp [mapInsert, mapGet, h, h', hne]
      · simp [mapInsert, mapGet, h, h', ih]

theorem updateLocalToken_ok_get {s s' : Store} {u tok : String}
    (h : updateLocalToken s u tok = .ok s') : getLocalToken s' u = tok := by
  cases s with
  | mk fstate writeFails =>
    cases fstate with
    | absent =>
      cases writeFails <;> simp [updateLocalToken] at h
      subst h
      simp [getLocalToken, mapGet_mapInsert_self]
    | unreadable mode => simp [updateLocalToken] at h
    | present data mode =>
      cases writeFails <;> simp [updateLocalToken] at h
      subst h
      simp [getLocalToken, mapGet_mapInsert_self]

theorem lookupKey_none (keys : List JSONWebKey) (kid : String)
    (h : ∀ k ∈ keys, k.keyID ≠ kid) : lookupKey keys kid = .error .keyNotFound := by
  induction keys with
  | nil => rfl
  | cons k rest ih =>
    have hk : k.keyID ≠ kid := h k (List.mem_cons_self k rest)
    simp [lookupKey, hk]
    exact ih fun k' hk' => h k' (List.mem_cons_of_mem k hk')

theorem checkTokenValidity_reduce (parse : String → Option JSONWebToken)
    (a : Authenticator) (now : Int) (token : String) (t : JSONWebToken) (pk : PubKey)
    (hne : token ≠ "") (hp : parse token = some t) (hk : findKey a.jwks t = .ok pk)
    (hsig : pk = t.sigKey) :
    checkTokenValidity parse a now token =
      match validateWithLeeway t.claims (now + expirationWindow) 0 with
      | .error _ => .error .expired
      | .ok _ => .ok () := by
  subst hsig
  simp [checkTokenValidity, hne, hp, hk]

/-! ## Claims about the token validator -/

/-- C1 counterexample: `nbfToken` parses, its header kid `k1` matches a key
of the key set, its signature verifies under that key, and its expiry lies
strictly beyond `now + expirationWindow` — yet `checkTokenValidity` does not
return ok, because the token's `nbf` claim lies beyond the validation
instant and go-jose's `ValidateWithLeeway` rejects it as not valid yet. -/
theorem checkTokenValidity_nbf_counterexample :
    ("tok" : String) ≠ "" ∧
    nbfParse "tok" = some nbfToken ∧
    findKey demoKeys nbfToken = .ok 7 ∧
    (7 : PubKey) = nbfToken.sigKey ∧
    nbfToken.claims.expiry = some 200000000000 ∧
    (0 : Int) + expirationWindow < 200000000000 ∧
    checkTokenValidity nbfParse demoAuth 0 "tok" ≠ .ok () := by
  decide

/-- C1 (amended): for every token that parses as a signed JWT, whose header
kid matches a key of the key set, whose signature verifies under that key,
whose expiry lies strictly beyond `now + expirationWindow`, and whose `nbf`
and `iat` claims — when present — do not lie beyond `now + expirationWindow`,
`checkTokenValidity` returns ok. -/
theorem checkTokenValidity_fresh_valid_ok (parse : String → Option JSONWebToken)
    (a : Authenticator) (now : Int) (token : String) (t : JSONWebToken) (pk : PubKey)
    (exp : Int)
    (hne : token ≠ "") (hp : parse token = some t)
    (hk : findKey a.jwks t = .ok pk) (hsig : pk = t.sigKey)
    (hexp : t.claims.expiry = some exp) (hlt : now + expirationWindow < exp)
    (hnbf : ∀ nbf, t.claims.notBefore = some nbf → nbf ≤ now + expirationWindow)
    (hiat : ∀ iat, t.claims.issuedAt = some iat → iat ≤ now + expirationWindow) :
    checkTokenValidity parse a now token = .ok () := by
  rw [checkTokenValidity_reduce parse a now token t pk hne hp hk hsig]
  have h1 : nbfViolated t.claims (now + expirationWindow) 0 = false := by
    cases hcn : t.claims.notBefore with
    | none => simp [nbfViolated, hcn]
    | some nbf =>
      have h := hnbf nbf hcn
      simp [nbfViolated, hcn]
      omega
  have h2 : expiryViolated t.claims (now + expirationWindow) 0 = false := by
    simp [expiryViolated, hexp]
    omega
  have h3 : iatViolated t.claims (now + expirationWindow) 0 = false := by
    cases hci : t.claims.issuedAt with
    | none => simp [iatViolated, hci]
    | some iat =>
      have h := hiat iat hci
      simp [iatViolated, hci]
      omega
  simp [validateWithLeeway, h1, h2, h3]

/-- Witness for the amended C1: `validToken` at `now = 0`. -/
theorem checkTokenValidity_fresh_valid_ok_witness :
    ("tok" : String) ≠ "" ∧
    validParse "tok" = some validToken ∧
    findKey demoKeys validToken = .ok 9 ∧
    (9 : PubKey) = validToken.sigKey ∧
    validToken.claims.expiry = some 200000000000 ∧
    (0 : Int) + expirationWindow < 200000000000 ∧
    checkTokenValidity validParse demoAuth 0 "tok" = .ok () :=
  ⟨by decide, by decide, by decide, by decide, by decide, by decide,
   checkTokenValidity_fresh_valid_ok validParse demoAuth 0 "tok" validToken 9 200000000000
     (by decide) (by decide) (by decide) (by decide) (by decide) (by decide)
     (fun nbf h => by injection h with h'; subst h'; decide)
     (fun iat h => by injection h with h'; subst h'; decide)⟩

/-- C2 counterexample: `boundaryToken` has a valid signature under key `k1`
of the key set and its expiry equals `now + expirationWindow` exactly, yet
`checkTokenValidity` accepts it (go-jose's expiry guard is strict:
`e.Time.After(exp)`), instead of failing as Expired. -/
theorem checkTokenValidity_boundary_counterexample :
    boundaryParse "tok" = some boundaryToken ∧
    findKey demoKeys boundaryToken = .ok 7 ∧
    (7 : PubKey) = boundaryToken.sigKey ∧
    boundaryToken.claims.expiry = some ((0 : Int) + expirationWindow) ∧
    checkTokenValidity boundaryParse demoAuth 0 "tok" = .ok () := by
  decide

/-- C2 (amended): for every token with a valid signature under a key of the
key set, whose expiry claim lies strictly before `now + expirationWindow`,
`checkTokenValidity` fails with the Expired kind; a token whose expiry
equals `now + expirationWindow` exactly is not rejected for expiry. -/
theorem checkTokenValidity_expired_strict (parse : String → Option JSONWebToken)
    (a : Authenticator) (now : Int) (token : String) (t : JSONWebToken) (pk : PubKey)
    (exp : Int)
    (hne : token ≠ "") (hp : parse token = some t)
    (hk : findKey a.jwks t = .ok pk) (hsig : pk = t.sigKey)
    (hexp : t.claims.expiry = some exp) (hlt : exp < now + expirationWindow) :
    checkTokenValidity parse a now token = .error .expired := by
  rw [checkTokenValidity_reduce parse a now token t pk hne hp hk hsig]
  by_cases hn : nbfViolated t.claims (now + expirationWindow) 0
  · simp [validateWithLeeway, hn]
  · have he : expiryViolated t.claims (now + expirationWindow) 0 = true := by
      simp [expiryViolated, hexp]
      omega
    simp [validateWithLeeway, hn, he]

/-- Witness for the amended C2: `expiredToken` at `now = 0`. -/
theorem checkTokenValidity_expired_strict_witness :
    ("tok" : String) ≠ "" ∧
    expiredParse "tok" = some expiredToken ∧
    findKey demoKeys expiredToken = .ok 7 ∧
    (7 : PubKey) = expiredToken.sigKey ∧
    expiredToken.claims.expiry = some 59999999999 ∧
    (59999999999 : Int) < 0 + expirationWindow ∧
    checkTokenValidity expiredParse demoAuth 0 "tok" = .error .expired :=
  ⟨by decide, by decide, by decide, by decide, by decide, by decide,
   checkTokenValidity_expired_strict expiredParse demoAuth 0 "tok" expiredToken 7 59999999999
     (by decide) (by decide) (by decide) (by decide) (by decide) (by decide)⟩

/-- C4: for every parseable token, the kid is the one of the first header
carrying a nonempty key identifier (`firstKid`); when no header carries one,
or the key set — searched linearly — holds no key with that identifier,
`checkTokenValidity` fails with the KeyNotFound kind, with no constraint on
the token's signature (`sigKey` is arbitrary: signature verification is
never reached). -/
theorem checkTokenValidity_keyNotFound (parse : String → Option JSONWebToken)
    (a : Authenticator) (now : Int) (token : String) (t : JSONWebToken)
    (hne : token ≠ "") (hp : parse token = some t)
    (h : firstKid t.headers = "" ∨ ∀ k ∈ a.jwks.keys, k.keyID ≠ firstKid t.headers) :
    checkTokenValidity parse a now token = .error .keyNotFound := by
  have hfk : findKey a.jwks t = .error .keyNotFound := by
    rcases h with h0 | hall
    · simp [findKey, h0]
    · by_cases h0 : firstKid t.headers = ""
      · simp [findKey, h0]
      · simpa [findKey, h0] using lookupKey_none a.jwks.keys (firstKid t.headers) hall
  simp [checkTokenValidity, hne, hp, hfk]

/-- Witness for C4: `unknownKidToken`, whose first header has an empty kid
and whose second carries `kX`, absent from `demoKeys`, while its signature
would verify under key `k1`. -/
theorem checkTokenValidity_keyNotFound_witness :
    ("tok" : String) ≠ "" ∧
    unknownKidParse "tok" = some unknownKidToken ∧
    (∀ k ∈ demoAuth.jwks.keys, k.keyID ≠ firstKid unknownKidToken.headers) ∧
    checkTokenValidity unknownKidParse demoAuth 0 "tok" = .error .keyNotFound :=
  ⟨by decide, by decide, by decide,
   checkTokenValidity_keyNotFound unknownKidParse demoAuth 0 "tok" unknownKidToken
     (by decide) (by decide) (Or.inr (by decide))⟩

/-! ## Claims about the local token store -/

/-- C5: for every username, `getLocalToken` (Load) on a missing tokens file,
or on a file whose contents fail to parse as a JSON map from usernames to
token strings, returns the empty string; its Go signature returns only a
string, so no error can ever surface to the caller. -/
theorem getLocalToken_missing_or_corrupt (username raw : String) (mode : Nat) (w : Bool) :
    getLocalToken { fstate := .absent, writeFails := w } username = "" ∧
    getLocalToken { fstate := .present (.corrupt raw) mode, writeFails := w } username = "" :=
  ⟨rfl, rfl⟩

/-- C7 counterexample: on a tokens file that exists but whose read fails
with an error other than `os.ErrNotExist` (e.g. permission denied),
`updateLocalToken` (Save) returns the read error to the caller instead of
treating the mapping as empty and proceeding to insert and write — so
Save's read policy is not the same fail-open-to-empty policy as Load's. -/
theorem updateLocalToken_readError_counterexample :
    updateLocalToken { fstate := .unreadable 0o644, writeFails := false } "alice" "tok" =
      .error .readFailed := by
  decide

/-- C7 (amended): `updateLocalToken` (Save) fails open to an empty mapping
only when the read fails with file-not-found, or when the file's contents
fail to parse; a read failure other than file-not-found is returned to the
caller as an error. -/
theorem updateLocalToken_read_policy (raw u tok : String) (mode : Nat) (w : Bool) :
    updateLocalToken { fstate := .unreadable mode, writeFails := w } u tok =
      .error .readFailed ∧
    updateLocalToken { fstate := .present (.corrupt raw) mode, writeFails := false } u tok =
      .ok { fstate := .present (.tokensJSON (mapInsert [] u tok)) mode, writeFails := false } ∧
    updateLocalToken { fstate := .absent, writeFails := false } u tok =
      .ok { fstate := .present (.tokensJSON (mapInsert [] u tok)) 0o644,
            writeFails := false } := by
  refine ⟨rfl, ?_, ?_⟩ <;> simp [updateLocalToken]

/-- C8: on an existing tokens file that parses as a valid JSON map,
`updateLocalToken` (Save) for one username persists exactly the old map
with the entry for that username inserted or overwritten; the entry of
every other username is unchanged. -/
theorem updateLocalToken_preserves_others (m : List (String × String)) (mode : Nat)
    (u tok u' : String) (hne : u' ≠ u) :
    updateLocalToken { fstate := .present (.tokensJSON m) mode, writeFails := false } u tok =
      .ok { fstate := .present (.tokensJSON (mapInsert m u tok)) mode, writeFails := false } ∧
    mapGet (mapInsert m u tok) u' = mapGet m u' ∧
    mapGet (mapInsert m u tok) u = tok := by
  exact ⟨by simp [updateLocalToken], mapGet_mapInsert_ne m u tok u' hne,
    mapGet_mapInsert_self m u tok⟩

/-- Witness for C8 at a concrete store holding entries for alice and bob. -/
theorem updateLocalToken_preserves_others_witness :
    ("bob" : String) ≠ "alice" ∧
    (updateLocalToken
        { fstate := .present (.tokensJSON [("alice", "a"), ("bob", "b")]) 0o644,
          writeFails := false } "alice" "new" =
      .ok { fstate := .present (.tokensJSON (mapInsert [("alice", "a"), ("bob", "b")] "alice" "new")) 0o644,
            writeFails := false } ∧
    mapGet (mapInsert [("alice", "a"), ("bob", "b")] "alice" "new") "bob" =
      mapGet [("alice", "a"), ("bob", "b")] "bob" ∧
    mapGet (mapInsert [("alice", "a"), ("bob", "b")] "alice" "new") "alice" = "new") :=
  ⟨by decide,
   updateLocalToken_preserves_others [("alice", "a"), ("bob", "b")] 0o644 "alice" "new" "bob"
     (by decide)⟩

/-- C9: a successful `updateLocalToken` (Save) of a token under a username,
followed by `getLocalToken` (Load) for the same username on the resulting
state, returns the identical token string. -/
theorem save_load_roundtrip (s s' : Store) (u tok : String)
    (h : updateLocalToken s u tok = .ok s') : getLocalToken s' u = tok :=
  updateLocalToken_ok_get h

/-- Witness for C9: saving under alice on a fresh store, then loading. -/
theorem save_load_roundtrip_witness :
    updateLocalToken { fstate := .absent, writeFails := false } "alice" "tok" =
      .ok { fstate := .present (.tokensJSON [("alice", "tok")]) 0o644, writeFails := false } ∧
    getLocalToken
      { fstate := .present (.tokensJSON [("alice", "tok")]) 0o644, writeFails := false }
      "alice" = "tok" :=
  ⟨by decide,
   save_load_roundtrip { fstate := .absent, writeFails := false }
     { fstate := .present (.tokensJSON [("alice", "tok")]) 0o644, writeFails := false }
     "alice" "tok" (by decide)⟩

/-- C10: on an existing tokens file whose contents are not a valid JSON
string-to-string map, `updateLocalToken` (Save) succeeds and rewrites the
file as the mapping holding only the new entry: every other username's
previously stored entry is erased. -/
theorem updateLocalToken_corrupt_resets (raw u tok u' : String) (mode : Nat)
    (hne : u' ≠ u) :
    updateLocalToken { fstate := .present (.corrupt raw) mode, writeFails := false } u tok =
      .ok { fstate := .present (.tokensJSON [(u, tok)]) mode, writeFails := false } ∧
    mapGet [(u, tok)] u' = "" := by
  have hun : u ≠ u' := fun h => hne h.symm
  exact ⟨by simp [updateLocalToken, mapInsert], by simp [mapGet, hun]⟩

/-- Witness for C10: saving under alice over a corrupt file erases bob. -/
theorem updateLocalToken_corrupt_resets_witness :
    ("bob" : String) ≠ "alice" ∧
    (updateLocalToken
        { fstate := .present (.corrupt "not json") 0o644, writeFails := false }
        "alice" "tok" =
      .ok { fstate := .present (.tokensJSON [("alice", "tok")]) 0o644, writeFails := false } ∧
    mapGet [("alice", "tok")] "bob" = "") :=
  ⟨by decide, updateLocalToken_corrupt_resets "not json" "alice" "tok" "bob" 0o644 (by decide)⟩

/-! ## Claims about the orchestrator -/

/-- C3: `GetToken` first loads the cached token for the username and, when
validation accepts it, returns it with no Hub call and no state change;
when validation fails for any reason, the first Hub call is `Login`, and —
when `Login`, `GetScanID` and the save all succeed — the fresh token is
persisted under the username and returned; the Hub-call trace is always one
of `[]`, `[login]`, `[login, getScanID]`: no call is ever retried. -/
theorem getToken_cache_or_negotiate (parse : String → Option JSONWebToken)
    (a : Authenticator) (now : Int) (cfg : AuthConfig) (s : Store) :
    (checkTokenValidity parse a now (getLocalToken s cfg.username) = .ok () →
      GetToken parse a now cfg s =
        { token := getLocalToken s cfg.username, err := none, store := s, events := [] }) ∧
    (∀ e, checkTokenValidity parse a now (getLocalToken s cfg.username) = .error e →
      (GetToken parse a now cfg s).events.head? = some .login) ∧
    (∀ e hubToken newToken s',
      checkTokenValidity parse a now (getLocalToken s cfg.username) = .error e →
      a.hub.login cfg = .ok hubToken →
      a.hub.getScanID hubToken = .ok newToken →
      updateLocalToken s cfg.username newToken = .ok s' →
      GetToken parse a now cfg s =
        { token := newToken, err := none, store := s', events := [.login, .getScanID] } ∧
      getLocalToken s' cfg.username = newToken) ∧
    ((GetToken parse a now cfg s).events = [] ∨
     (GetToken parse a now cfg s).events = [.login] ∨
     (GetToken parse a now cfg s).events = [.login, .getScanID]) := by
  refine ⟨?_, ?_, ?_, ?_⟩
  · intro h
    simp [GetToken, h]
  · intro e hval
    cases hlog : a.hub.login cfg with
    | error c => simp [GetToken, hval, negotiateScanIDToken, hlog]
    | ok hubToken =>
      cases hgs : a.hub.getScanID hubToken with
      | error c => simp [GetToken, hval, negotiateScanIDToken, hlog, hgs]
      | ok newToken =>
        cases hupd : updateLocalToken s cfg.username newToken with
        | error e2 => simp [GetToken, hval, negotiateScanIDToken, hlog, hgs, hupd]
        | ok s' => simp [GetToken, hval, negotiateScanIDToken, hlog, hgs, hupd]
  · intro e hubToken newToken s' hval hlog hgs hupd
    refine ⟨?_, updateLocalToken_ok_get hupd⟩
    simp [GetToken, hval, negotiateScanIDToken, hlog, hgs, hupd]
  · cases hval : checkTokenValidity parse a now (getLocalToken s cfg.username) with
    | ok u => exact Or.inl (by simp [GetToken, hval])
    | error e =>
      cases hlog : a.hub.login cfg with
      | error c =>
        exact Or.inr (Or.inl (by simp [GetToken, hval, negotiateScanIDToken, hlog]))
      | ok hubToken =>
        cases hgs : a.hub.getScanID hubToken with
        | error c =>
          exact Or.inr (Or.inr
            (by simp [GetToken, hval, negotiateScanIDToken, hlog, hgs]))
        | ok newToken =>
          cases hupd : updateLocalToken s cfg.username newToken with
          | error e2 =>
            exact Or.inr (Or.inr
              (by simp [GetToken, hval, negotiateScanIDToken, hlog, hgs, hupd]))
          | ok s' =>
            exact Or.inr (Or.inr
              (by simp [GetToken, hval, negotiateScanIDToken, hlog, hgs, hupd]))

/-- Witness for C3: an empty store and `demoAuth`, whose Hub calls both
succeed — validation of the empty cached token fails, Login and GetScanID
run once each, the fresh token is persisted under bob and returned. -/
theorem getToken_cache_or_negotiate_witness :
    checkTokenValidity noParse demoAuth 0
        (getLocalToken { fstate := .absent, writeFails := false } "bob") = .error .empty ∧
    demoAuth.hub.login { username := "bob", password := "pw" } = .ok "hub-session" ∧
    demoAuth.hub.getScanID "hub-session" = .ok "fresh-token" ∧
    updateLocalToken { fstate := .absent, writeFails := false } "bob" "fresh-token" =
      .ok { fstate := .present (.tokensJSON [("bob", "fresh-token")]) 0o644,
            writeFails := false } ∧
    GetToken noParse demoAuth 0 { username := "bob", password := "pw" }
        { fstate := .absent, writeFails := false } =
      { token := "fresh-token", err := none,
        store := { fstate := .present (.tokensJSON [("bob", "fresh-token")]) 0o644,
                   writeFails := false },
        events := [.login, .getScanID] } ∧
    getLocalToken
      { fstate := .present (.tokensJSON [("bob", "fresh-token")]) 0o644,
        writeFails := false } "bob" = "fresh-token" :=
  ⟨by decide, by decide, by decide, by decide,
   ((getToken_cache_or_negotiate noParse demoAuth 0 { username := "bob", password := "pw" }
      { fstate := .absent, writeFails := false }).2.2.1 .empty "hub-session" "fresh-token"
      { fstate := .present (.tokensJSON [("bob", "fresh-token")]) 0o644, writeFails := false }
      (by decide) (by decide) (by decide) (by decide)).1,
   ((getToken_cache_or_negotiate noParse demoAuth 0 { username := "bob", password := "pw" }
      { fstate := .absent, writeFails := false }).2.2.1 .empty "hub-session" "fresh-token"
      { fstate := .present (.tokensJSON [("bob", "fresh-token")]) 0o644, writeFails := false }
      (by decide) (by decide) (by decide) (by decide)).2⟩

/-- C6: when validation of the cached token fails, negotiation succeeds,
and persisting the fresh token fails, `GetToken` returns the error wrapping
the persistence failure together with the empty token string — the fresh
token is discarded, never returned. -/
theorem getToken_persist_failure_discards (parse : String → Option JSONWebToken)
    (a : Authenticator) (now : Int) (cfg : AuthConfig) (s : Store)
    (e : ValidationError) (hubToken newToken : String) (se : StoreError)
    (hval : checkTokenValidity parse a now (getLocalToken s cfg.username) = .error e)
    (hlog : a.hub.login cfg = .ok hubToken)
    (hgs : a.hub.getScanID hubToken = .ok newToken)
    (hupd : updateLocalToken s cfg.username newToken = .error se) :
    GetToken parse a now cfg s =
      { token := "", err := some (.updateFailed se), store := s,
        events := [.login, .getScanID] } := by
  simp [GetToken, hval, negotiateScanIDToken, hlog, hgs, hupd]

/-- Witness for C6: an absent tokens file whose write fails — the fresh
token `"fresh-token"` is negotiated, the save fails, and `GetToken` returns
the empty string with the wrapped write failure. -/
theorem getToken_persist_failure_discards_witness :
    checkTokenValidity noParse demoAuth 0
        (getLocalToken { fstate := .absent, writeFails := true } "bob") = .error .empty ∧
    demoAuth.hub.login { username := "bob", password := "pw" } = .ok "hub-session" ∧
    demoAuth.hub.getScanID "hub-session" = .ok "fresh-token" ∧
    updateLocalToken { fstate := .absent, writeFails := true } "bob" "fresh-token" =
      .error .writeFailed ∧
    GetToken noParse demoAuth 0 { username := "bob", password := "pw" }
        { fstate := .absent, writeFails := true } =
      { token := "", err := some (.updateFailed .writeFailed),
        store := { fstate := .absent, writeFails := true },
        events := [.login, .getScanID] } :=
  ⟨by decide, by decide, by decide, by decide,
   getToken_persist_failure_discards noParse demoAuth 0
     { username := "bob", password := "pw" } { fstate := .absent, writeFails := true }
     .empty "hub-session" "fresh-token" .writeFailed
     (by decide) (by decide) (by decide) (by decide)⟩

end ScanAuth
